import Mathlib

/-!
Shallow embedding of the coverage aggregation, threshold-evaluation and
report-rendering core of lcov-pull-request-report (src/index.js), together
with theorems settling the specification claims about it.

Counters are natural numbers; percentages are rational numbers (the source
computes with JS doubles, idealized here as exact rationals). The changed
file set is modelled as a list of paths with membership via contains,
matching the exact string equality the source relies on.
-/

namespace LcovReport

/-- One found/hit counter pair, as produced by the external lcov parser
for lines, functions and branches. -/
structure LcovPair where
  found : Nat
  hit : Nat
  deriving Repr, DecidableEq

/-- A per-file coverage record: path plus the three counter pairs.
Mirrors the record shape consumed by sumLcov and the renderers. -/
structure CoverageRecord where
  file : String
  lines : LcovPair
  functions : LcovPair
  branches : LcovPair
  deriving Repr, DecidableEq

/-- One step of the reduce in sumLcov: add the six counters of a record
onto the accumulator (the source copies the accumulator and adds; the
non-counter fields of the accumulator, such as the path, are kept). -/
def sumStep (total file : CoverageRecord) : CoverageRecord :=
  { total with
    lines := ⟨total.lines.found + file.lines.found, total.lines.hit + file.lines.hit⟩
    functions := ⟨total.functions.found + file.functions.found,
                  total.functions.hit + file.functions.hit⟩
    branches := ⟨total.branches.found + file.branches.found,
                 total.branches.hit + file.branches.hit⟩ }

/-- The optional filtering step shared by sumLcov and renderLcovFiles:
with a filter set, keep the records whose path is a member. -/
def filterByFiles (data : List CoverageRecord) (files : Option (List String)) :
    List CoverageRecord :=
  match files with
  | some fs => data.filter (fun item => fs.contains item.file)
  | none => data

/-- sumLcov from src/index.js: filter (when a file set is given), return
undefined (none) on an empty result, otherwise reduce with the first
record as the seed. -/
def sumLcov (data : List CoverageRecord) (files : Option (List String)) :
    Option CoverageRecord :=
  match filterByFiles data files with
  | [] => none
  | first :: rest => some (rest.foldl sumStep first)

/-- calculateLineCoverage from src/index.js: found = 0 gives 0, else
hit * 100 / found. -/
def calculateLineCoverage (lines : LcovPair) : ℚ :=
  if lines.found = 0 then 0 else (lines.hit * 100 : ℚ) / lines.found

/-- isPassed from src/index.js: coverage is 0 when the aggregate is
undefined or its lines.found is 0, else hit * 100 / found; passed means
coverage is at least the minimum. -/
def isPassed (data : Option CoverageRecord) (minimumCoverage : ℚ) : Bool :=
  let coverage : ℚ :=
    match data with
    | none => 0
    | some d => if d.lines.found = 0 then 0 else (d.lines.hit * 100 : ℚ) / d.lines.found
  decide (minimumCoverage ≤ coverage)

/-- checkAllIndividualFilesPassed from src/index.js: vacuously true on an
empty collection or a zero (falsy) minimum, else every record's line
coverage must reach the minimum. -/
def checkAllIndividualFilesPassed (files : List CoverageRecord)
    (minimumCoverage : ℚ) : Bool :=
  if files.isEmpty = true ∨ minimumCoverage = 0 then true
  else files.all (fun file => decide (minimumCoverage ≤ calculateLineCoverage file.lines))

/-- renderPassed from src/index.js. -/
def renderPassed (p : Bool) : String :=
  if p then "✅" else "❌"

/-- Number.toFixed(1) of the source, idealized over exact rationals:
round half away from zero to one decimal place (the inputs here are
non-negative). -/
def toFixed1 (q : ℚ) : String :=
  let n : Int := (q * 10 + 1 / 2).floor
  let whole := n / 10
  let frac := (n % 10).natAbs
  s!"{whole}.{frac}"

/-- renderLcovPercentage from src/index.js: the literal N/A cell when
found = 0, else "hit/found (p%)" with p to one decimal place. -/
def renderLcovPercentage (lcov : LcovPair) : String :=
  let hit := lcov.hit
  let found := lcov.found
  if found = 0 then "N/A"
  else
    let percentage := toFixed1 ((hit * 100 : ℚ) / found)
    s!"{hit}/{found} ({percentage}%)"

/-- path.basename of the external path collaborator: the last
slash-separated component. -/
def basename (p : String) : String :=
  (p.splitOn "/").getLastD ""

/-- Model of the external markdown-table collaborator: one pipe-delimited
line per row. The claims below depend only on whether its output is empty
and on its first character, which any markdown table renderer shares. -/
def markdownTable (rows : List (List String)) : String :=
  rows.foldr (fun row acc => "| " ++ String.intercalate " | " row ++ " |\n" ++ acc) ""

/-- The heading line renderLcovFiles emits above the table when a minimum
is configured. -/
def fileTableHeading (minimumCoverage : ℚ) : String :=
  s!"#### Files (Minimum Coverage: {minimumCoverage}%)\n\n"

/-- The table built by renderLcovFiles: the fixed header row, then one
row per record with the basename, the three percentage cells and the
status glyph; a row's status glyph compares the file's line coverage
with the minimum, or is unconditionally passed when no minimum is
configured. -/
def fileTableRows (rows : List CoverageRecord) (minimumCoverage : ℚ) :
    List (List String) :=
  [["File", "Lines", "Functions", "Branches", "Status"]] ++
    rows.map (fun item =>
      let lineCoverage := calculateLineCoverage item.lines
      let passed := if minimumCoverage = 0 then true
                    else decide (minimumCoverage ≤ lineCoverage)
      [basename item.file, renderLcovPercentage item.lines,
       renderLcovPercentage item.functions, renderLcovPercentage item.branches,
       renderPassed passed])

/-- renderLcovFiles from src/index.js: filter, return the empty string on
an empty result, else an optional heading (only for a truthy minimum)
followed by the per-file markdown table. -/
def renderLcovFiles (data : List CoverageRecord) (files : Option (List String))
    (minimumCoverage : ℚ) : String :=
  let rows := filterByFiles data files
  if rows.isEmpty then ""
  else
    let heading := if minimumCoverage = 0 then "" else fileTableHeading minimumCoverage
    heading ++ markdownTable (fileTableRows rows minimumCoverage) ++ "\n\n"

/-- The pure verdict computed by run in src/index.js: the all-files
aggregate must pass, and, when any changed-file coverage data exists, the
changed-files aggregate must pass and every individual changed file must
pass the changed-files minimum. -/
def runVerdict (data : List CoverageRecord) (changedFiles : List String)
    (allFilesMinimumCoverage changedFilesMinimumCoverage : ℚ) : Bool :=
  let allFilesLcov := sumLcov data none
  let allFilesPassed := isPassed allFilesLcov allFilesMinimumCoverage
  let changedFilesLcov := sumLcov data (some changedFiles)
  let hasChangedFiles := changedFilesLcov.isSome
  let changedFilesPassed := isPassed changedFilesLcov changedFilesMinimumCoverage
  let changedFilesData := data.filter (fun item => changedFiles.contains item.file)
  let allIndividualFilesPassed :=
    checkAllIndividualFilesPassed changedFilesData changedFilesMinimumCoverage
  allFilesPassed && (!hasChangedFiles || (changedFilesPassed && allIndividualFilesPassed))

/-- The line coverage of a record is never negative: counters are natural
numbers. -/
theorem calculateLineCoverage_nonneg (lines : LcovPair) :
    0 ≤ calculateLineCoverage lines := by
  unfold calculateLineCoverage
  split
  · exact le_refl 0
  · positivity

/-- checkAllIndividualFilesPassed agrees, for every input, with the
pointwise condition that each record's line coverage reaches the minimum
(the vacuous branches coincide with the pointwise reading because
coverage is non-negative). -/
theorem checkAllIndividualFilesPassed_eq_true_iff (files : List CoverageRecord)
    (minimumCoverage : ℚ) :
    checkAllIndividualFilesPassed files minimumCoverage = true ↔
      ∀ f ∈ files, minimumCoverage ≤ calculateLineCoverage f.lines := by
  unfold checkAllIndividualFilesPassed
  split
  · rename_i h
    rcases h with h | h
    · rw [List.isEmpty_iff] at h
      simp [h]
    · subst h
      simp only [true_iff]
      intro f _
      exact calculateLineCoverage_nonneg f.lines
  · simp [List.all_eq_true]

/-- sumLcov returns the no-data sentinel exactly on an empty filtered
record list. -/
theorem sumLcov_eq_none_iff (data : List CoverageRecord) (files : Option (List String)) :
    sumLcov data files = none ↔ filterByFiles data files = [] := by
  unfold sumLcov
  cases h : filterByFiles data files <;> simp

/-- C2 counterexample: the claimed equivalence "passed iff data-present
and coverage at least minimum" fails at the absent aggregate with
minimum 0: isPassed returns true although no data is present. -/
theorem isPassed_counterexample_absent_zero_minimum :
    isPassed none 0 = true ∧ (none : Option CoverageRecord).isSome = false :=
  ⟨by decide, rfl⟩

/-- C2 amended: isPassed returns true exactly when the effective line
coverage (0 for an absent aggregate or a zero lines.found, else
hit * 100 / found, which is calculateLineCoverage of the aggregate's
lines) reaches the minimum; an absent aggregate therefore fails every
strictly positive minimum. -/
theorem isPassed_eq_true_iff (data : Option CoverageRecord) (minimumCoverage : ℚ) :
    (isPassed data minimumCoverage = true ↔
      minimumCoverage ≤ calculateLineCoverage ((data.map CoverageRecord.lines).getD ⟨0, 0⟩)) ∧
    (0 < minimumCoverage → isPassed none minimumCoverage = false) := by
  constructor
  · cases data with
    | none => simp [isPassed, calculateLineCoverage]
    | some d => simp [isPassed, calculateLineCoverage]
  · intro h
    simp only [isPassed, decide_eq_false_iff_not, not_le]
    exact h

/-- Witness for the amended C2 theorem at the absent aggregate and
minimum 50. -/
theorem isPassed_eq_true_iff_witness :
    isPassed (none : Option CoverageRecord) 50 = false :=
  (isPassed_eq_true_iff none 50).2 (by norm_num)

/-- C3: a zero lines.found gives coverage exactly 0, renders as the
literal N/A cell, and fails every strictly positive minimum. -/
theorem zero_denominator_rule (rec : CoverageRecord) (minimumCoverage : ℚ)
    (hfound : rec.lines.found = 0) (hmin : 0 < minimumCoverage) :
    calculateLineCoverage rec.lines = 0 ∧
    renderLcovPercentage rec.lines = "N/A" ∧
    isPassed (some rec) minimumCoverage = false := by
  refine ⟨?_, ?_, ?_⟩
  · simp [calculateLineCoverage, hfound]
  · simp [renderLcovPercentage, hfound]
  · simp only [isPassed, hfound, if_pos, decide_eq_false_iff_not, not_le]
    exact hmin

/-- Witness for C3 at a concrete empty-lines record and minimum 75. -/
theorem zero_denominator_rule_witness :
    calculateLineCoverage (⟨0, 0⟩ : LcovPair) = 0 ∧
    renderLcovPercentage (⟨0, 0⟩ : LcovPair) = "N/A" ∧
    isPassed (some ⟨"empty.js", ⟨0, 0⟩, ⟨0, 0⟩, ⟨0, 0⟩⟩) 75 = false :=
  zero_denominator_rule ⟨"empty.js", ⟨0, 0⟩, ⟨0, 0⟩, ⟨0, 0⟩⟩ 75 rfl (by norm_num)

/-- C5 counterexample: a malformed record with hit greater than found is
not rejected anywhere: sumLcov sums it without error and the computed
line coverage is 150 percent, which isPassed happily accepts against a
minimum of 100. -/
theorem malformed_record_counterexample :
    sumLcov [⟨"bad.js", ⟨100, 150⟩, ⟨0, 0⟩, ⟨0, 0⟩⟩] none =
      some ⟨"bad.js", ⟨100, 150⟩, ⟨0, 0⟩, ⟨0, 0⟩⟩ ∧
    calculateLineCoverage ⟨100, 150⟩ = 150 ∧
    (100 : ℚ) < calculateLineCoverage ⟨100, 150⟩ ∧
    isPassed (some ⟨"bad.js", ⟨100, 150⟩, ⟨0, 0⟩, ⟨0, 0⟩⟩) 100 = true := by
  refine ⟨rfl, ?_, ?_, ?_⟩
  · norm_num [calculateLineCoverage]
  · norm_num [calculateLineCoverage]
  · simp only [isPassed, decide_eq_true_eq]
    norm_num

/-- C5 amended: the core performs no validation of its input records; a
record with hit greater than found (and a non-zero found) is processed
without any error and silently yields a line-coverage percentage
strictly above 100. -/
theorem malformed_record_exceeds_100 (lines : LcovPair)
    (h0 : lines.found ≠ 0) (hlt : lines.found < lines.hit) :
    100 < calculateLineCoverage lines := by
  unfold calculateLineCoverage
  rw [if_neg h0]
  have hpos : (0 : ℚ) < lines.found := by
    exact_mod_cast Nat.pos_of_ne_zero h0
  rw [lt_div_iff₀ hpos]
  have hcast : (lines.found : ℚ) < lines.hit := by exact_mod_cast hlt
  nlinarith

/-- Witness for the amended C5 theorem at found 100, hit 150. -/
theorem malformed_record_exceeds_100_witness :
    (100 : ℚ) < calculateLineCoverage ⟨100, 150⟩ :=
  malformed_record_exceeds_100 ⟨100, 150⟩ (by norm_num) (by norm_num)

/-- C6: the all-individual-files-pass predicate is vacuously true on an
empty collection or a zero (disabled) minimum, and otherwise holds
exactly when every record's line coverage reaches the minimum. -/
theorem checkAllIndividualFilesPassed_spec (files : List CoverageRecord)
    (minimumCoverage : ℚ) :
    (files = [] ∨ minimumCoverage = 0 →
      checkAllIndividualFilesPassed files minimumCoverage = true) ∧
    (files ≠ [] → minimumCoverage ≠ 0 →
      (checkAllIndividualFilesPassed files minimumCoverage = true ↔
        ∀ f ∈ files, minimumCoverage ≤ calculateLineCoverage f.lines)) := by
  constructor
  · intro h
    rw [checkAllIndividualFilesPassed_eq_true_iff]
    rcases h with h | h
    · simp [h]
    · subst h
      intro f _
      exact calculateLineCoverage_nonneg f.lines
  · intro _ _
    exact checkAllIndividualFilesPassed_eq_true_iff files minimumCoverage

/-- Witness for C6: the empty collection at minimum 75, a low-coverage
record at the disabled minimum 0, and the same record at minimum 75
where the pointwise reading applies. -/
theorem checkAllIndividualFilesPassed_spec_witness :
    checkAllIndividualFilesPassed [] 75 = true ∧
    checkAllIndividualFilesPassed [⟨"low.js", ⟨100, 50⟩, ⟨0, 0⟩, ⟨0, 0⟩⟩] 0 = true ∧
    (checkAllIndividualFilesPassed [⟨"low.js", ⟨100, 50⟩, ⟨0, 0⟩, ⟨0, 0⟩⟩] 75 = true ↔
      ∀ f ∈ [(⟨"low.js", ⟨100, 50⟩, ⟨0, 0⟩, ⟨0, 0⟩⟩ : CoverageRecord)],
        (75 : ℚ) ≤ calculateLineCoverage f.lines) :=
  ⟨(checkAllIndividualFilesPassed_spec [] 75).1 (Or.inl rfl),
   (checkAllIndividualFilesPassed_spec [⟨"low.js", ⟨100, 50⟩, ⟨0, 0⟩, ⟨0, 0⟩⟩] 0).1 (Or.inr rfl),
   (checkAllIndividualFilesPassed_spec [⟨"low.js", ⟨100, 50⟩, ⟨0, 0⟩, ⟨0, 0⟩⟩] 75).2
     (by simp) (by norm_num)⟩

/-- C8: coverage exactly equal to the minimum passes, both in the
aggregate evaluation and in the per-row status comparison of the file
table: at hit 75 of found 100 against minimum 75 the comparison uses
at-least, not strictly-greater. -/
theorem threshold_boundary_passes (file : String) (fns brs : LcovPair) :
    isPassed (some ⟨file, ⟨100, 75⟩, fns, brs⟩) 75 = true ∧
    (75 : ℚ) ≤ calculateLineCoverage ⟨100, 75⟩ := by
  constructor
  · simp [isPassed]
  · norm_num [calculateLineCoverage]

/-- The six counters of a record, in source order: lines, functions,
branches, each found then hit. -/
def countersOf (r : CoverageRecord) : Nat × Nat × Nat × Nat × Nat × Nat :=
  (r.lines.found, r.lines.hit, r.functions.found, r.functions.hit,
   r.branches.found, r.branches.hit)

/-- Componentwise sums of the six counters over a record list. -/
def sumCounters (l : List CoverageRecord) : Nat × Nat × Nat × Nat × Nat × Nat :=
  ((l.map fun r => r.lines.found).sum, (l.map fun r => r.lines.hit).sum,
   (l.map fun r => r.functions.found).sum, (l.map fun r => r.functions.hit).sum,
   (l.map fun r => r.branches.found).sum, (l.map fun r => r.branches.hit).sum)

/-- Folding sumStep accumulates exactly the componentwise counter sums on
top of the seed record's counters. -/
theorem countersOf_foldl (l : List CoverageRecord) (init : CoverageRecord) :
    countersOf (l.foldl sumStep init) = countersOf init + sumCounters l := by
  induction l generalizing init with
  | nil =>
    simp [countersOf, sumCounters, Prod.ext_iff]
  | cons x xs ih =>
    rw [List.foldl_cons, ih]
    simp only [countersOf, sumCounters, sumStep, Prod.mk_add_mk, Prod.mk.injEq,
      List.map_cons, List.sum_cons]
    omega

/-- Counter sums of a cons decompose as head plus tail. -/
theorem sumCounters_cons (x : CoverageRecord) (xs : List CoverageRecord) :
    sumCounters (x :: xs) = countersOf x + sumCounters xs := by
  simp [sumCounters, countersOf, Prod.mk_add_mk]

/-- Counter sums are invariant under permutation of the record list. -/
theorem sumCounters_perm {l l' : List CoverageRecord} (h : l.Perm l') :
    sumCounters l = sumCounters l' := by
  unfold sumCounters
  rw [(h.map fun r => r.lines.found).sum_eq, (h.map fun r => r.lines.hit).sum_eq,
    (h.map fun r => r.functions.found).sum_eq, (h.map fun r => r.functions.hit).sum_eq,
    (h.map fun r => r.branches.found).sum_eq, (h.map fun r => r.branches.hit).sum_eq]

/-- Filtering by an optional file set preserves permutations. -/
theorem filterByFiles_perm {l l' : List CoverageRecord} (files : Option (List String))
    (h : l.Perm l') : (filterByFiles l files).Perm (filterByFiles l' files) := by
  cases files with
  | none => exact h
  | some fs => exact h.filter _

/-- C4: for every permutation of the record list, with or without a
filter set, sumLcov yields the no-data sentinel together or aggregates
with identical found/hit counters for lines, functions and branches. -/
theorem sumLcov_perm (l l' : List CoverageRecord) (files : Option (List String))
    (h : l.Perm l') :
    Option.map countersOf (sumLcov l files) = Option.map countersOf (sumLcov l' files) := by
  have hp := filterByFiles_perm files h
  unfold sumLcov
  cases hf : filterByFiles l files with
  | nil =>
    rw [hf] at hp
    have hf2 : filterByFiles l' files = [] := hp.symm.eq_nil
    rw [hf2]
  | cons a as =>
    rw [hf] at hp
    cases hf2 : filterByFiles l' files with
    | nil =>
      rw [hf2] at hp
      exact absurd hp.eq_nil (by simp)
    | cons b bs =>
      rw [hf2] at hp
      rw [Option.map_some', Option.map_some']
      rw [countersOf_foldl, countersOf_foldl]
      have hsum := sumCounters_perm hp
      rw [sumCounters_cons, sumCounters_cons] at hsum
      exact congrArg some hsum

/-- Witness for C4 at a concrete two-record list and its swap, with no
filter set. -/
theorem sumLcov_perm_witness :
    Option.map countersOf
        (sumLcov [⟨"a.js", ⟨4, 3⟩, ⟨2, 1⟩, ⟨6, 5⟩⟩, ⟨"b.js", ⟨10, 7⟩, ⟨0, 0⟩, ⟨1, 0⟩⟩] none) =
      Option.map countersOf
        (sumLcov [⟨"b.js", ⟨10, 7⟩, ⟨0, 0⟩, ⟨1, 0⟩⟩, ⟨"a.js", ⟨4, 3⟩, ⟨2, 1⟩, ⟨6, 5⟩⟩] none) :=
  sumLcov_perm _ _ none (List.Perm.swap _ _ _)

/-- C1: the overall verdict is true exactly when the all-files aggregate
passes the all-files minimum and either there is no changed-file
coverage data at all (the changed-files aggregate is the no-data
sentinel) or the changed-files aggregate passes the changed-files
minimum and every changed-file record's line coverage reaches that
minimum; in particular absence of changed-file data never by itself
falsifies the verdict. -/
theorem runVerdict_eq_true_iff (data : List CoverageRecord) (changedFiles : List String)
    (allFilesMinimumCoverage changedFilesMinimumCoverage : ℚ) :
    runVerdict data changedFiles allFilesMinimumCoverage changedFilesMinimumCoverage = true ↔
      (isPassed (sumLcov data none) allFilesMinimumCoverage = true ∧
        (sumLcov data (some changedFiles) = none ∨
          (isPassed (sumLcov data (some changedFiles)) changedFilesMinimumCoverage = true ∧
            ∀ r ∈ data.filter (fun item => changedFiles.contains item.file),
              changedFilesMinimumCoverage ≤ calculateLineCoverage r.lines))) := by
  unfold runVerdict
  simp only [Bool.and_eq_true, Bool.or_eq_true, Bool.not_eq_true']
  rw [checkAllIndividualFilesPassed_eq_true_iff]
  cases h : sumLcov data (some changedFiles) <;> simp [h]

/-- C10: when the changed-file set matches no record's path, the
changed-files aggregate is the no-data sentinel and the overall verdict
collapses to the all-files evaluation alone, even though the
changed-file set itself is non-empty. -/
theorem runVerdict_no_matching_changed_files (data : List CoverageRecord)
    (changedFiles : List String) (allFilesMinimumCoverage changedFilesMinimumCoverage : ℚ)
    (_hne : changedFiles ≠ [])
    (hnomatch : ∀ r ∈ data, changedFiles.contains r.file = false) :
    sumLcov data (some changedFiles) = none ∧
    runVerdict data changedFiles allFilesMinimumCoverage changedFilesMinimumCoverage =
      isPassed (sumLcov data none) allFilesMinimumCoverage := by
  have hfilter : data.filter (fun item => changedFiles.contains item.file) = [] := by
    rw [List.filter_eq_nil_iff]
    intro a ha
    rw [hnomatch a ha]
    simp
  have h1 : filterByFiles data (some changedFiles) =
      data.filter (fun item => changedFiles.contains item.file) := rfl
  have hnone : sumLcov data (some changedFiles) = none := by
    rw [sumLcov_eq_none_iff, h1, hfilter]
  refine ⟨hnone, ?_⟩
  simp only [runVerdict]
  rw [hnone]
  simp

/-- Witness for C10: one record outside a non-empty changed-file set. -/
theorem runVerdict_no_matching_changed_files_witness :
    sumLcov [⟨"a.js", ⟨10, 5⟩, ⟨0, 0⟩, ⟨0, 0⟩⟩] (some ["b.js"]) = none ∧
    runVerdict [⟨"a.js", ⟨10, 5⟩, ⟨0, 0⟩, ⟨0, 0⟩⟩] ["b.js"] 50 90 =
      isPassed (sumLcov [⟨"a.js", ⟨10, 5⟩, ⟨0, 0⟩, ⟨0, 0⟩⟩] none) 50 :=
  runVerdict_no_matching_changed_files _ _ 50 90 (by decide) (by decide)

/-- The heading string starts with a hash character. -/
theorem fileTableHeading_data (minimumCoverage : ℚ) :
    (fileTableHeading minimumCoverage).data =
      '#' :: (("### Files (Minimum Coverage: ").data ++
        (toString minimumCoverage).data ++ ("%)\n\n").data) := by
  have h1 : fileTableHeading minimumCoverage =
      "#### Files (Minimum Coverage: " ++ toString minimumCoverage ++ "%)\n\n" := rfl
  have h2 : ("#### Files (Minimum Coverage: ").data =
      '#' :: ("### Files (Minimum Coverage: ").data := rfl
  rw [h1, String.data_append, String.data_append, h2]
  simp

/-- A rendered non-empty table starts with a pipe character. -/
theorem markdownTable_cons_data (r : List String) (rs : List (List String)) :
    (markdownTable (r :: rs)).data =
      '|' :: ' ' :: ((String.intercalate " | " r).data ++ (" |\n").data ++
        (markdownTable rs).data) := by
  have h1 : markdownTable (r :: rs) =
      "| " ++ String.intercalate " | " r ++ " |\n" ++ markdownTable rs := rfl
  have h2 : ("| ").data = '|' :: [' '] := rfl
  rw [h1, String.data_append, String.data_append, String.data_append, h2]
  simp

/-- Appending a string with non-empty contents never gives the empty
string. -/
theorem append_right_data_ne_empty (s t : String) (ht : t.data ≠ []) :
    s ++ t ≠ "" := by
  intro h
  have hd := congrArg String.data h
  rw [String.data_append] at hd
  exact ht (List.append_eq_nil.mp hd).2

/-- A string starting with a pipe character is never the heading followed
by anything. -/
theorem pipe_ne_hash_prefix (s rest : String) (minimumCoverage : ℚ) (t : List Char)
    (hs : s.data = '|' :: t) :
    s ≠ fileTableHeading minimumCoverage ++ rest := by
  intro h
  have hd := congrArg String.data h
  rw [String.data_append, hs, fileTableHeading_data] at hd
  simp at hd

/-- The table part of a non-empty rendering, with the trailing blank
line, starts with a pipe character. -/
theorem tablePart_data (rows : List CoverageRecord) (minimumCoverage : ℚ)
    (a : CoverageRecord) (as : List CoverageRecord) (h : rows = a :: as) :
    (markdownTable (fileTableRows rows minimumCoverage) ++ "\n\n").data =
      '|' :: (' ' :: ((String.intercalate " | "
          ["File", "Lines", "Functions", "Branches", "Status"]).data ++ (" |\n").data ++
        (markdownTable (List.map (fun item =>
          [basename item.file, renderLcovPercentage item.lines,
           renderLcovPercentage item.functions, renderLcovPercentage item.branches,
           renderPassed (if minimumCoverage = 0 then true
             else decide (minimumCoverage ≤ calculateLineCoverage item.lines))]) rows)).data) ++
        ("\n\n").data) := by
  subst h
  rw [String.data_append]
  rw [show fileTableRows (a :: as) minimumCoverage =
    ["File", "Lines", "Functions", "Branches", "Status"] ::
      List.map (fun item =>
        [basename item.file, renderLcovPercentage item.lines,
         renderLcovPercentage item.functions, renderLcovPercentage item.branches,
         renderPassed (if minimumCoverage = 0 then true
           else decide (minimumCoverage ≤ calculateLineCoverage item.lines))]) (a :: as) from rfl]
  rw [markdownTable_cons_data]
  simp

/-- C7: the file table renders to the empty string exactly when the
filtered record set is empty, and on a non-empty filtered set the output
starts with the minimum-naming heading exactly when the minimum is
non-zero (configured). -/
theorem renderLcovFiles_spec (data : List CoverageRecord) (files : Option (List String))
    (minimumCoverage : ℚ) :
    (renderLcovFiles data files minimumCoverage = "" ↔ filterByFiles data files = []) ∧
    (filterByFiles data files ≠ [] →
      ((∃ rest, renderLcovFiles data files minimumCoverage =
          fileTableHeading minimumCoverage ++ rest) ↔ minimumCoverage ≠ 0)) := by
  cases hf : filterByFiles data files with
  | nil =>
    constructor
    · simp [renderLcovFiles, hf]
    · intro h
      exact absurd rfl h
  | cons a as =>
    have hr : renderLcovFiles data files minimumCoverage =
        (if minimumCoverage = 0 then "" else fileTableHeading minimumCoverage) ++
          markdownTable (fileTableRows (a :: as) minimumCoverage) ++ "\n\n" := by
      simp only [renderLcovFiles, hf]
      rfl
    constructor
    · rw [hr]
      constructor
      · intro hcontra
        exfalso
        refine append_right_data_ne_empty _ _ ?_ hcontra
        rw [show ("\n\n").data = ['\n', '\n'] from rfl]
        simp
      · intro hcontra
        exact absurd hcontra (List.cons_ne_nil a as)
    · intro _
      by_cases hzero : minimumCoverage = 0
      · rw [hr, if_pos hzero]
        constructor
        · rintro ⟨rest, hrest⟩
          exfalso
          have hemp : (("" : String) ++
              markdownTable (fileTableRows (a :: as) minimumCoverage)) ++ "\n\n" =
              markdownTable (fileTableRows (a :: as) minimumCoverage) ++ "\n\n" := rfl
          rw [hemp] at hrest
          exact pipe_ne_hash_prefix _ rest minimumCoverage _
            (tablePart_data (a :: as) minimumCoverage a as rfl) hrest
        · intro hne'
          exact absurd hzero hne'
      · rw [hr, if_neg hzero]
        constructor
        · intro _
          exact hzero
        · intro _
          exact ⟨markdownTable (fileTableRows (a :: as) minimumCoverage) ++ "\n\n",
            String.append_assoc _ _ _⟩

/-- Witness for C7: one record, no filter set; the empty-set side uses an
empty record list. -/
theorem renderLcovFiles_spec_witness :
    (renderLcovFiles [] none 75 = "" ↔ filterByFiles [] none = []) ∧
    (filterByFiles [⟨"a.js", ⟨10, 5⟩, ⟨0, 0⟩, ⟨0, 0⟩⟩] none ≠ [] →
      ((∃ rest, renderLcovFiles [⟨"a.js", ⟨10, 5⟩, ⟨0, 0⟩, ⟨0, 0⟩⟩] none 75 =
          fileTableHeading 75 ++ rest) ↔ (75 : ℚ) ≠ 0)) :=
  ⟨(renderLcovFiles_spec [] none 75).1,
   (renderLcovFiles_spec [⟨"a.js", ⟨10, 5⟩, ⟨0, 0⟩, ⟨0, 0⟩⟩] none 75).2⟩

end LcovReport
